import Mathlib

/-!
Shallow embedding of the medlegal-llm core:
`src/utils/ollama_manager.py` (OllamaManager), `src/core/index_builder.py`
(IndexBuilder) and `src/core/query_handler.py` (QueryHandler), together with
theorems settling the specification claims about them.

External collaborators (the HTTP library, psutil, subprocess, the llama_index
library, the filesystem) are modelled as explicit environments; the control
flow of each embedded function is translated line by line from the Python
source.
-/

namespace Medlegal

/-- Python exception classes relevant to the embedded code.  `psutil`'s
`TimeoutExpired` and `subprocess`'s `TimeoutExpired` are distinct, unrelated
classes in Python; the embedding keeps them distinct. -/
inductive PyExc where
  | psutilNoSuchProcess
  | psutilTimeoutExpired
  | subprocTimeoutExpired
  | keyError
  | typeError
  | attributeError
  | otherError
  deriving DecidableEq

/-- JSON values, as produced by `response.json()`. -/
inductive JsonVal where
  | obj (fields : List (String × JsonVal))
  | arr (elems : List JsonVal)
  | str (s : String)
  | num (n : Int)
  | boolean (b : Bool)
  | null

/-- A network request as issued through `requests.get`: the url, and the
explicit `timeout` argument (`none` when the call passes no timeout, i.e. the
library default of waiting indefinitely). -/
structure HttpRequest where
  url : String
  timeout : Option Nat
  deriving DecidableEq

/-- Possible outcomes of one `requests.get` call: a response with status code,
body text, and (oracle for `response.json()`) an optional parsed JSON value
(`none` models a body that fails to parse, so `json()` raises), or a
`requests.exceptions.ConnectionError`. -/
inductive HttpResult where
  | ok (status : Nat) (body : String) (json : Option JsonVal)
  | connError

/-- The HTTP world: what each request returns. -/
structure HttpEnv where
  get : HttpRequest → HttpResult

/-- Boolean prefix test on character lists. -/
def charPrefix : List Char → List Char → Bool
  | [], _ => true
  | _ :: _, [] => false
  | a :: as, b :: bs => a == b && charPrefix as bs

/-- Substring occurrence on character lists. -/
def charContains (needle : List Char) : List Char → Bool
  | [] => needle.isEmpty
  | c :: rest => charPrefix needle (c :: rest) || charContains needle rest

/-- Python's `needle in haystack` on strings. -/
def strContains (haystack needle : String) : Bool :=
  charContains needle.data haystack.data

/-- The mutable state of an `OllamaManager` instance. -/
structure OllamaManager where
  host : String
  ollama_process : Option Nat
  atexit_registered : Bool

/-- `OllamaManager.is_ollama_running`: issues `requests.get(self.host)` — with
no `timeout` argument — and checks for status 200 with "Ollama is running" in
the body; a `ConnectionError` yields `false`.  Also returns the list of
network requests issued. -/
def is_ollama_running (env : HttpEnv) (host : String) : Bool × List HttpRequest :=
  match env.get { url := host, timeout := none } with
  | .ok status body _ =>
    (status == 200 && strContains body "Ollama is running",
      [{ url := host, timeout := none }])
  | .connError => (false, [{ url := host, timeout := none }])

/-- First-match lookup in a JSON object's field list (Python dict indexing). -/
def lookupField : List (String × JsonVal) → String → Option JsonVal
  | [], _ => none
  | (k, v) :: rest, key => if k = key then some v else lookupField rest key

/-- `model['name']` on one element of the models array: a dict lookup that
raises `KeyError` when the field is absent, and `TypeError` when the element
is not a dict. -/
def extractName : JsonVal → Except PyExc JsonVal
  | .obj fields =>
    match lookupField fields "name" with
    | some v => .ok v
    | none => .error .keyError
  | _ => .error .typeError

/-- `[model['name'] for model in models_data.get('models', [])]`: `.get` on a
non-dict raises `AttributeError`; iterating a non-iterable raises `TypeError`;
iterating a string or dict yields strings, whose `['name']` raises
`TypeError`. -/
def extractModels : JsonVal → Except PyExc (List JsonVal)
  | .obj fields =>
    match lookupField fields "models" with
    | none => .ok []
    | some (.arr ms) => ms.mapM extractName
    | some (.str s) => if s = "" then .ok [] else .error .typeError
    | some (.obj fs) => if fs.isEmpty then .ok [] else .error .typeError
    | some _ => .error .typeError
  | _ => .error .attributeError

/-- `OllamaManager.get_installed_models`: probes the service, then issues
`requests.get(self.host + "/api/tags")` — again with no `timeout` argument —
and extracts the model names.  `raise_for_status` raises `HTTPError` (a
`RequestException`, caught) for 4xx/5xx codes; `json.JSONDecodeError` is
caught; schema errors (`KeyError`, `TypeError`, `AttributeError`) are not.
Returns the result (or the uncaught exception) and the requests issued. -/
def get_installed_models (env : HttpEnv) (host : String) :
    Except PyExc (List JsonVal) × List HttpRequest :=
  match is_ollama_running env host with
  | (false, log) => (.ok [], log)
  | (true, log) =>
    match env.get { url := host ++ "/api/tags", timeout := none } with
    | .connError => (.ok [], log ++ [{ url := host ++ "/api/tags", timeout := none }])
    | .ok status _ json =>
      if 400 ≤ status ∧ status < 600 then
        (.ok [], log ++ [{ url := host ++ "/api/tags", timeout := none }])
      else
        match json with
        | none => (.ok [], log ++ [{ url := host ++ "/api/tags", timeout := none }])
        | some j => (extractModels j, log ++ [{ url := host ++ "/api/tags", timeout := none }])

/-- Exceptions `psutil.Process`, `.children` and `.terminate` can raise. -/
inductive PsutilExc where
  | noSuchProcess
  | accessDenied
  deriving DecidableEq

/-- Which Python exception class each psutil failure is. -/
def PsutilExc.toPyExc : PsutilExc → PyExc
  | .noSuchProcess => .psutilNoSuchProcess
  | .accessDenied => .otherError

/-- Observable process-level actions `stop` can perform. -/
inductive ProcAction where
  | terminateChild (pid : Nat)
  | terminateParent (pid : Nat)
  | waitProc (pid : Nat) (timeoutSec : Nat)
  | killProc (pid : Nat)
  deriving DecidableEq

/-- The OS/process world seen by `stop`:
`pollRunning pid` — whether `Popen.poll()` returns `None` (still running);
`lookupChildren` — `psutil.Process(pid)` plus `children(recursive=True)`;
`terminateRes` — outcome of `terminate()` on a pid (`none` = success);
`waitExitsInTime` — whether `Popen.wait(timeout=5)` returns (else it raises
`subprocess.TimeoutExpired`); `killRes` — outcome of `Popen.kill()`. -/
structure ProcEnv where
  pollRunning : Nat → Bool
  lookupChildren : Nat → Except PsutilExc (List Nat)
  terminateRes : Nat → Option PsutilExc
  waitExitsInTime : Nat → Bool
  killRes : Nat → Option PsutilExc

/-- `for child in parent.children(recursive=True): child.terminate()` —
stops at the first raising terminate. -/
def terminateChildren (env : ProcEnv) : List Nat → List ProcAction × Option PyExc
  | [] => ([], none)
  | c :: cs =>
    match env.terminateRes c with
    | some ex => ([.terminateChild c], some ex.toPyExc)
    | none =>
      let rest := terminateChildren env cs
      (.terminateChild c :: rest.1, rest.2)

/-- The try-block of `OllamaManager.stop`: look up the process and its
children, terminate each child, terminate the parent, then
`self.ollama_process.wait(timeout=5)`, which raises
`subprocess.TimeoutExpired` when the process does not exit within 5 seconds.
Returns the trace of actions and the exception the block raises, if any. -/
def stopTryBody (env : ProcEnv) (pid : Nat) : List ProcAction × Option PyExc :=
  match env.lookupChildren pid with
  | .error ex => ([], some ex.toPyExc)
  | .ok children =>
    match terminateChildren env children with
    | (tr, some ex) => (tr, some ex)
    | (tr, none) =>
      match env.terminateRes pid with
      | some ex => (tr ++ [.terminateParent pid], some ex.toPyExc)
      | none =>
        if env.waitExitsInTime pid then
          (tr ++ [.terminateParent pid, .waitProc pid 5], none)
        else
          (tr ++ [.terminateParent pid, .waitProc pid 5], some .subprocTimeoutExpired)

/-- `OllamaManager.stop`.  Guard: `if self.ollama_process and
self.ollama_process.poll() is None`.  The except clauses match, in order,
`psutil.NoSuchProcess`, `psutil.TimeoutExpired` (whose handler calls
`self.ollama_process.kill()`, outside any try), then `Exception`; afterwards
`_unregister_atexit()` sets `self.ollama_process = None`.  Returns the new
manager state, the trace of process actions, and an uncaught exception if one
propagates out of `stop`. -/
def stop (env : ProcEnv) (m : OllamaManager) :
    OllamaManager × List ProcAction × Option PyExc :=
  match m.ollama_process with
  | none => (m, [], none)
  | some pid =>
    if env.pollRunning pid then
      match stopTryBody env pid with
      | (tr, none) => ({ m with ollama_process := none }, tr, none)
      | (tr, some .psutilNoSuchProcess) => ({ m with ollama_process := none }, tr, none)
      | (tr, some .psutilTimeoutExpired) =>
        match env.killRes pid with
        | none => ({ m with ollama_process := none }, tr ++ [.killProc pid], none)
        | some ex => (m, tr ++ [.killProc pid], some ex.toPyExc)
      | (tr, some _) => ({ m with ollama_process := none }, tr, none)
    else (m, [], none)

/-- Outcome of `subprocess.Popen(["ollama", "serve"], ...)`. -/
inductive SpawnResult where
  | ok (pid : Nat)
  | fileNotFound
  | otherError

/-- The world seen by `start`: the HTTP environment at each successive probe
(index 0 is the initial probe, indices 1..10 the polling loop), the spawn
outcome, and the process world used by the cleanup `self.stop()`. -/
structure StartEnv where
  http : Nat → HttpEnv
  spawn : SpawnResult
  proc : ProcEnv

/-- `OllamaManager.start`: initial liveness probe (→ "already_running"),
spawn (`FileNotFoundError` → "not_found", other exception →
"failed_to_start"), then poll `is_ollama_running` up to 10 times
(→ "started"); otherwise `self.stop()` and "failed_to_start".  Returns the
new state, the returned status string, and the process actions performed. -/
def start (env : StartEnv) (m : OllamaManager) :
    OllamaManager × String × List ProcAction :=
  if (is_ollama_running (env.http 0) m.host).1 then
    (m, "already_running", [])
  else
    match env.spawn with
    | .fileNotFound => (m, "not_found", [])
    | .otherError => (m, "failed_to_start", [])
    | .ok pid =>
      let m1 : OllamaManager :=
        { m with ollama_process := some pid, atexit_registered := true }
      if (List.range 10).any (fun k => (is_ollama_running (env.http (k + 1)) m.host).1) then
        (m1, "started", [])
      else
        let s := stop env.proc m1
        (s.1, "failed_to_start", s.2.1)

/-- A source document handed to the index builder; `doc_id` is its stable
identity. -/
structure Doc where
  doc_id : Nat
  deriving DecidableEq

/-- An in-memory llama_index index: the (multiset of) documents it contains,
in insertion order. -/
structure LlamaIndex where
  docs : List Doc
  deriving DecidableEq

/-- Failure oracle for the external llama_index library:
`ctxRaises` — `StorageContext.from_defaults(persist_dir=path)` raises (this
call happens before the try-block); `loadRaises` — `load_index_from_storage`
raises; `insertRaises` — `index.insert_document(doc)` raises; `persistRaises`
— `storage_context.persist` raises; `buildRaises` — `from_documents`
raises. -/
structure IdxEnv where
  ctxRaises : String → Bool
  loadRaises : String → Bool
  insertRaises : Doc → Bool
  persistRaises : Bool
  buildRaises : Bool

/-- The persisted world of the index builder: for each persist path, whether
the manifest marker `docstore.json` exists, the persisted document list, and
the global log of every document embedding performed so far. -/
structure IdxWorld where
  marker : String → Bool
  stored : String → List Doc
  embeds : List Doc

/-- `for doc in documents: index.insert_document(doc)` — every insert embeds
its document (appends it to the embed log) regardless of whether the document
is already represented in the index; stops at the first raising insert.
Arguments: in-memory index contents, embed log, documents to insert.
Returns (index contents, embed log, whether an insert raised). -/
def insertAll (env : IdxEnv) : List Doc → List Doc → List Doc → List Doc × List Doc × Bool
  | idx, log, [] => (idx, log, false)
  | idx, log, d :: ds =>
    if env.insertRaises d then (idx, log, true)
    else insertAll env (idx ++ [d]) (log ++ [d]) ds

/-- `IndexBuilder._build_or_load_index`.  `_get_storage_context` (which reads
the persisted stores at the path) runs before the try-block, so its exception
propagates (`.error ()`); inside the try, every exception is caught and
yields `.ok none`.  With the marker present: load, then, if `documents` is
non-empty, insert each document and persist; with no marker and non-empty
`documents`: build from the documents and persist; otherwise `.ok none`. -/
def _build_or_load_index (env : IdxEnv) (root : String) (w : IdxWorld)
    (documents : List Doc) (index_name : String) :
    Except Unit (Option LlamaIndex) × IdxWorld :=
  if env.ctxRaises (root ++ "/" ++ index_name) then (.error (), w)
  else if w.marker (root ++ "/" ++ index_name) then
    if env.loadRaises (root ++ "/" ++ index_name) then (.ok none, w)
    else if documents.isEmpty then
      (.ok (some ⟨w.stored (root ++ "/" ++ index_name)⟩), w)
    else
      match insertAll env (w.stored (root ++ "/" ++ index_name)) w.embeds documents with
      | (_, log1, true) => (.ok none, { w with embeds := log1 })
      | (idx1, log1, false) =>
        if env.persistRaises then (.ok none, { w with embeds := log1 })
        else
          (.ok (some ⟨idx1⟩),
            { marker := fun q => if q = root ++ "/" ++ index_name then true else w.marker q,
              stored := fun q => if q = root ++ "/" ++ index_name then idx1 else w.stored q,
              embeds := log1 })
  else if !documents.isEmpty then
    if env.buildRaises then (.ok none, w)
    else if env.persistRaises then (.ok none, { w with embeds := w.embeds ++ documents })
    else
      (.ok (some ⟨documents⟩),
        { marker := fun q => if q = root ++ "/" ++ index_name then true else w.marker q,
          stored := fun q => if q = root ++ "/" ++ index_name then documents else w.stored q,
          embeds := w.embeds ++ documents })
  else (.ok none, w)

/-- Helper for `splitSlash`: accumulates the current component (reversed). -/
def splitSlashAux : List Char → List Char → List String
  | acc, [] => [String.mk acc.reverse]
  | acc, c :: cs =>
    if c = '/' then String.mk acc.reverse :: splitSlashAux [] cs
    else splitSlashAux (c :: acc) cs

/-- Split a POSIX path string on '/' (component level of `os.path.join`),
with the same result as Python's `s.split('/')`. -/
def splitSlash (s : String) : List String :=
  splitSlashAux [] s.data

/-- Whether a path string is absolute (`name.startswith("/")`). -/
def startsWithSlash (s : String) : Bool :=
  match s.data with
  | c :: _ => c == '/'
  | [] => false

/-- One step of OS path resolution: "" and "." are skipped, ".." pops the
last component, anything else is appended. -/
def normStep (acc : List String) (comp : String) : List String :=
  if comp = "" ∨ comp = "." then acc
  else if comp = ".." then acc.dropLast
  else acc ++ [comp]

/-- OS-level resolution of a component list (absolute, from the filesystem
root). -/
def normalizePath (comps : List String) : List String :=
  comps.foldl normStep []

/-- `os.path.join(root, name)` at component level: an absolute `name`
discards `root`. -/
def joinName (root : List String) (name : String) : List String :=
  if startsWithSlash name then splitSlash name else root ++ splitSlash name

/-- `os.path.exists` over a filesystem modelled as the list of existing
nodes (absolute, normalized component paths). -/
def pathExistsIn (fs : List (List String)) (p : List String) : Bool :=
  fs.contains p

/-- `shutil.rmtree p`: removes every node at or below `p`. -/
def rmtree (fs : List (List String)) (p : List String) : List (List String) :=
  fs.filter fun q => !(p.isPrefixOf q)

/-- `IndexBuilder.clear_index_storage`: joins the persist root with the index
name, and if the resulting path exists, removes its whole subtree; otherwise
the filesystem is unchanged (and nothing raises). -/
def clear_index_storage (root : List String) (fs : List (List String))
    (index_name : String) : List (List String) :=
  let p := normalizePath (joinName root index_name)
  if pathExistsIn fs p then rmtree fs p else fs

/-- A llama_index retriever, as configured by `index.as_retriever`. -/
structure Retriever where
  top_k : Nat
  deriving DecidableEq

/-- The query plan returned by `get_vector_query_engine`: the retriever plus
the `SimilarityPostprocessor(similarity_cutoff=0.7)` post-filter. -/
structure RetrievalPlan where
  retriever : Retriever
  similarity_cutoff : ℚ
  deriving DecidableEq

/-- Failure oracle for `index.as_retriever(similarity_top_k=k)`. -/
structure RetEnv where
  asRetrieverOk : Nat → Bool

/-- `QueryHandler.get_vector_query_engine`: absent index → no plan; effective
top-k is doubled when `use_hybrid_search`; on a retriever-construction
failure, fall back once to the base `similarity_top_k`; if that also fails,
no plan.  The returned plan always carries the 0.7 similarity cutoff. -/
def get_vector_query_engine (env : RetEnv) (indexPresent : Bool)
    (similarity_top_k : Nat) (use_hybrid_search : Bool) : Option RetrievalPlan :=
  if !indexPresent then none
  else if env.asRetrieverOk
      (if use_hybrid_search then similarity_top_k * 2 else similarity_top_k) then
    some { retriever :=
             { top_k := if use_hybrid_search then similarity_top_k * 2 else similarity_top_k },
           similarity_cutoff := 7/10 }
  else if env.asRetrieverOk similarity_top_k then
    some { retriever := { top_k := similarity_top_k }, similarity_cutoff := 7/10 }
  else none

/-! ### Concrete environments and worlds used by the claim theorems -/

/-- Whether a JSON value is an object bearing a "name" field. -/
def hasName : JsonVal → Bool
  | .obj fields => (lookupField fields "name").isSome
  | _ => false

/-- The "name" field of a schema-conforming model object. -/
def nameOf : JsonVal → JsonVal
  | .obj fields => (lookupField fields "name").getD .null
  | _ => .null

/-- llama_index environment in which no library call raises. -/
def pureIdxEnv : IdxEnv :=
  { ctxRaises := fun _ => false, loadRaises := fun _ => false,
    insertRaises := fun _ => false, persistRaises := false, buildRaises := false }

/-- llama_index environment in which constructing the storage context (the
call before the try-block) raises, e.g. because a persisted store file is
corrupt. -/
def ctxFailIdxEnv : IdxEnv :=
  { pureIdxEnv with ctxRaises := fun _ => true }

/-- A fresh persistence root: no markers, nothing stored, nothing embedded. -/
def emptyIdxWorld : IdxWorld :=
  { marker := fun _ => false, stored := fun _ => [], embeds := [] }

/-- Two distinct documents with stable identities 0 and 1. -/
def docA : Doc := ⟨0⟩

/-- See `docA`. -/
def docB : Doc := ⟨1⟩

/-- World after `getOrBuild([docA], "n")` on a fresh root. -/
def c1World1 : IdxWorld :=
  (_build_or_load_index pureIdxEnv "root" emptyIdxWorld [docA] "n").2

/-- The second call `getOrBuild([docA, docB], "n")`. -/
def c1Run2 : Except Unit (Option LlamaIndex) × IdxWorld :=
  _build_or_load_index pureIdxEnv "root" c1World1 [docA, docB] "n"

/-- An HTTP world in which every request answers 200 "Ollama is running". -/
def probeOkHttpEnv : HttpEnv :=
  ⟨fun _ => .ok 200 "Ollama is running" (some (.obj []))⟩

/-- A process world in which the owned process (and one child, pid 7) is
alive, terminates are delivered, but the process ignores the termination
signal and `wait(timeout=5)` times out. -/
def c3Env : ProcEnv :=
  { pollRunning := fun _ => true,
    lookupChildren := fun _ => .ok [7],
    terminateRes := fun _ => none,
    waitExitsInTime := fun _ => false,
    killRes := fun _ => none }

/-- A manager owning pid 42 (as after `start()` returned "started"). -/
def c3Mgr : OllamaManager := ⟨"http://localhost:11434", some 42, true⟩

/-- A start environment whose very first probe answers successfully. -/
def c4StartEnv : StartEnv :=
  { http := fun _ => probeOkHttpEnv, spawn := .fileNotFound, proc := c3Env }

/-- A freshly constructed manager: no owning handle. -/
def c4Mgr : OllamaManager := ⟨"h", none, false⟩

/-- HTTP world for the C8 counterexample: the daemon is reachable and the
tags endpoint returns valid JSON whose single model object has no "name"
field. -/
def c8BadSchemaEnv : HttpEnv :=
  ⟨fun req =>
    if req.url = "h" then .ok 200 "Ollama is running" none
    else .ok 200 "" (some (.obj [("models", .arr [.obj []])]))⟩

/-- HTTP world in which the daemon is reachable and the tags endpoint
returns one well-formed model entry. -/
def c8GoodEnv : HttpEnv :=
  ⟨fun req =>
    if req.url = "h" then .ok 200 "Ollama is running" none
    else .ok 200 "" (some (.obj [("models", .arr [.obj [("name", .str "m1")]])]))⟩

/-- Retriever environment in which `as_retriever(similarity_top_k=6)` raises
but the base value succeeds. -/
def c9FailAt6Env : RetEnv := ⟨fun k => !(k == 6)⟩

/-- Retriever environment in which every `as_retriever` call succeeds. -/
def c9OkEnv : RetEnv := ⟨fun _ => true⟩

/-- Filesystem for the C10 counterexample: the persist root `/data`, one
index directory `/data/a` under it, a sibling `/sib`, and the filesystem
root `[]` itself (prefix-closed). -/
def c10Fs : List (List String) := [[], ["data"], ["data", "a"], ["sib"]]

/-- Filesystem for the C10 witness: the persist root and two index
directories under it. -/
def c10GoodFs : List (List String) := [["data"], ["data", "a"], ["data", "b"]]

/-! ### Helper lemmas -/

/-- `is_ollama_running` issues exactly one request: `GET host` without a
timeout. -/
theorem is_ollama_running_requests (env : HttpEnv) (host : String) :
    (is_ollama_running env host).2 = [{ url := host, timeout := none }] := by
  unfold is_ollama_running
  cases h : env.get { url := host, timeout := none } <;> rfl

/-- The child-termination loop never raises either `TimeoutExpired`. -/
theorem terminateChildren_exc (env : ProcEnv) (cs : List Nat) :
    (terminateChildren env cs).2 ≠ some PyExc.psutilTimeoutExpired ∧
    (terminateChildren env cs).2 ≠ some PyExc.subprocTimeoutExpired := by
  induction cs with
  | nil => simp [terminateChildren]
  | cons c cs ih =>
    unfold terminateChildren
    cases h : env.terminateRes c with
    | some ex => cases ex <;> simp [PsutilExc.toPyExc]
    | none => simpa using ih

/-- The try-block of `stop` never raises `psutil.TimeoutExpired`: the wait
raises `subprocess.TimeoutExpired`, a different class. -/
theorem stopTryBody_no_psutil_timeout (env : ProcEnv) (pid : Nat) :
    (stopTryBody env pid).2 ≠ some PyExc.psutilTimeoutExpired := by
  unfold stopTryBody
  cases hc : env.lookupChildren pid with
  | error ex => cases ex <;> simp [PsutilExc.toPyExc]
  | ok children =>
    dsimp only
    have hch := (terminateChildren_exc env children).1
    cases ht : terminateChildren env children with
    | mk tr exc =>
      rw [ht] at hch
      cases exc with
      | some ex =>
        simpa using hch
      | none =>
        cases hp : env.terminateRes pid with
        | some ex => cases ex <;> simp [PsutilExc.toPyExc]
        | none =>
          by_cases hw : env.waitExitsInTime pid <;> simp [hw]

/-- With a raise-free insert oracle, the insert loop appends every document
to the index and to the embed log, in order, and does not raise. -/
theorem insertAll_no_raise (env : IdxEnv) (h : ∀ d, env.insertRaises d = false) :
    ∀ ds idx log, insertAll env idx log ds = (idx ++ ds, log ++ ds, false) := by
  intro ds
  induction ds with
  | nil => intro idx log; simp [insertAll]
  | cons d ds ih =>
    intro idx log
    simp [insertAll, h d, ih (idx ++ [d]) (log ++ [d])]

/-- Mapping `model['name']` over a list in which every element bears a
"name" field succeeds and keeps the order. -/
theorem mapM_extractName_ok (ms : List JsonVal) (h : ms.all hasName = true) :
    ms.mapM extractName = Except.ok (ms.map nameOf) := by
  induction ms with
  | nil => rfl
  | cons m ms ih =>
    rw [List.all_cons, Bool.and_eq_true] at h
    have hm : extractName m = .ok (nameOf m) := by
      cases m with
      | obj fields =>
        have h1 : (lookupField fields "name").isSome = true := by
          simpa [hasName] using h.1
        cases hf : lookupField fields "name" with
        | none => rw [hf] at h1; simp at h1
        | some v => simp [extractName, nameOf, hf]
      | arr es => simp [hasName] at h
      | str s => simp [hasName] at h
      | num n => simp [hasName] at h
      | boolean b => simp [hasName] at h
      | null => simp [hasName] at h
    rw [List.mapM_cons, hm, ih h.2]
    rfl

/-! ### C1 — dedup refresh -/

/-- C1 counterexample: after `getOrBuild([docA], "n")` and then
`getOrBuild([docA, docB], "n")` on a fresh root, docA has been embedded
twice, not exactly once as the claim states — the merge loop inserts every
provided document without any reference-aware deduplication. -/
theorem C1_counterexample :
    c1Run2.2.embeds.count docA = 2 ∧ ¬ c1Run2.2.embeds.count docA = 1 := by
  exact ⟨rfl, by decide⟩

/-- C1, amended: the second call re-embeds unchanged docA.  Calling
`getOrBuild([docA], "n")` then `getOrBuild([docA, docB], "n")` embeds docA
twice and docB once: the refresh appends every provided document via a raw
insert, with no stable-identity check. -/
theorem C1_amended_no_dedup :
    c1Run2.2.embeds = [docA, docA, docB] ∧
    c1Run2.2.embeds.count docA = 2 ∧
    c1Run2.2.embeds.count docB = 1 ∧
    c1Run2.1 = .ok (some ⟨[docA, docA, docB]⟩) :=
  ⟨rfl, rfl, rfl, rfl⟩

/-! ### C2 — bounded timeouts on daemon calls -/

/-- C2 counterexample: at a concrete environment and the default host, not
every network call issued by `is_ollama_running` and `get_installed_models`
carries an explicit timeout — in fact none does, refuting the claimed 1–2s
(probe) and ≈2s (catalog) timeouts. -/
theorem C2_counterexample :
    ((is_ollama_running probeOkHttpEnv "http://localhost:11434").2.all
      (fun r => r.timeout.isSome)) = false ∧
    ((get_installed_models probeOkHttpEnv "http://localhost:11434").2.all
      (fun r => r.timeout.isSome)) = false :=
  ⟨rfl, rfl⟩

/-- C2, amended: every network call issued by the liveness probe and by the
catalog query is issued with NO explicit timeout (the library default of
waiting indefinitely), in every environment. -/
theorem C2_amended_no_timeout (env : HttpEnv) (host : String) :
    ((is_ollama_running env host).2.all (fun r => r.timeout == none)) = true ∧
    ((get_installed_models env host).2.all (fun r => r.timeout == none)) = true := by
  constructor
  · rw [is_ollama_running_requests]; rfl
  · unfold get_installed_models
    cases hp : is_ollama_running env host with
    | mk b tr =>
      have htr : tr = [{ url := host, timeout := none }] := by
        have h2 := is_ollama_running_requests env host
        rw [hp] at h2
        exact h2
      subst htr
      cases b with
      | false => rfl
      | true =>
        cases hg : env.get { url := host ++ "/api/tags", timeout := none } with
        | connError => rfl
        | ok status body json =>
          dsimp only
          by_cases hs : 400 ≤ status ∧ status < 600
          · rw [if_pos hs]
            rfl
          · rw [if_neg hs]
            cases json <;> rfl

/-! ### C3 — graceful stop escalates to kill after the grace period -/

/-- C3: in a world where the owned process (pid 42, child pid 7) stays alive
through the 5-second grace period, `stop` terminates the child and the
parent and waits, but never issues the forced kill: `Popen.wait` raises
`subprocess.TimeoutExpired`, which the `psutil.TimeoutExpired` handler does
not match, so the generic handler merely logs it.  The claimed escalation to
an unconditional kill does not happen (while the exception is still
swallowed and the handle cleared). -/
theorem C3_no_forced_kill_on_timeout :
    (stop c3Env c3Mgr).2.1 = [.terminateChild 7, .terminateParent 42, .waitProc 42 5] ∧
    ((stop c3Env c3Mgr).2.1.contains (.killProc 42)) = false ∧
    (stop c3Env c3Mgr).2.2 = none ∧
    (stop c3Env c3Mgr).1.ollama_process = none := by
  refine ⟨rfl, by decide, rfl, rfl⟩

/-! ### C4 — non-ownership safety -/

/-- `stop` with no owning handle is a pure no-op. -/
theorem stop_noop_of_no_handle (env : ProcEnv) (m : OllamaManager)
    (h : m.ollama_process = none) : stop env m = (m, [], none) := by
  unfold stop
  rw [h]

/-- `start` can only return "already_running" from its first branch, which
leaves the manager untouched. -/
theorem start_already_running_eq (env : StartEnv) (m : OllamaManager)
    (h : (start env m).2.1 = "already_running") :
    start env m = (m, "already_running", []) := by
  unfold start at h ⊢
  by_cases hp : (is_ollama_running (env.http 0) m.host).1 = true
  · rw [if_pos hp]
  · rw [if_neg hp] at h
    exfalso
    cases hs : env.spawn with
    | fileNotFound =>
      rw [hs] at h
      dsimp only at h
      exact absurd h (by decide)
    | otherError =>
      rw [hs] at h
      dsimp only at h
      exact absurd h (by decide)
    | ok pid =>
      rw [hs] at h
      dsimp only at h
      by_cases hpoll :
          ((List.range 10).any fun k => (is_ollama_running (env.http (k + 1)) m.host).1) = true
      · rw [if_pos hpoll] at h
        dsimp only at h
        exact absurd h (by decide)
      · rw [if_neg hpoll] at h
        dsimp only at h
        exact absurd h (by decide)

/-- C4 (confirmed): when `start()` returns "already_running" from a manager
holding no owning handle, the handle remains `None` (`ollama_process` stays
unset) and every subsequent `stop()` performs no process action, changes
nothing and raises nothing — the externally started daemon is never
terminated by this supervisor. -/
theorem C4_already_running_never_stops (env : StartEnv) (m : OllamaManager)
    (h0 : m.ollama_process = none)
    (h1 : (start env m).2.1 = "already_running") :
    (start env m).1.ollama_process = none ∧
    ∀ penv : ProcEnv, stop penv (start env m).1 = ((start env m).1, [], none) := by
  have he := start_already_running_eq env m h1
  rw [he]
  exact ⟨h0, fun penv => stop_noop_of_no_handle penv m h0⟩

/-- C4 witness: a concrete manager with no handle and an environment whose
first probe answers successfully. -/
theorem C4_witness :
    (start c4StartEnv c4Mgr).1.ollama_process = none ∧
    ∀ penv : ProcEnv, stop penv (start c4StartEnv c4Mgr).1 =
      ((start c4StartEnv c4Mgr).1, [], none) :=
  C4_already_running_never_stops c4StartEnv c4Mgr rfl rfl

/-! ### C5 — idempotent, exception-free stop -/

/-- C5 (confirmed): `stop` never lets an exception propagate (every try-block
exception is matched by a handler, and the handler that could itself raise —
the forced-kill one — is unreachable because the wait raises
`subprocess.TimeoutExpired`, not `psutil.TimeoutExpired`), and calling `stop`
again immediately afterwards returns the same state, performs no process
action and raises nothing: stop is idempotent and side-effect-free on
repeated calls. -/
theorem C5_stop_idempotent (env : ProcEnv) (m : OllamaManager) :
    (stop env m).2.2 = none ∧
    stop env (stop env m).1 = ((stop env m).1, [], none) := by
  cases hop : m.ollama_process with
  | none =>
    have h1 : stop env m = (m, [], none) := stop_noop_of_no_handle env m hop
    rw [h1]
    exact ⟨rfl, h1⟩
  | some pid =>
    have hnt := stopTryBody_no_psutil_timeout env pid
    by_cases hpoll : env.pollRunning pid = true
    · cases hb : stopTryBody env pid with
      | mk tr exc =>
        rw [hb] at hnt
        have hstop : stop env m = ({ m with ollama_process := none }, tr, none) := by
          unfold stop
          rw [hop]
          dsimp only
          rw [if_pos hpoll, hb]
          cases exc with
          | none => rfl
          | some e =>
            cases e with
            | psutilNoSuchProcess => rfl
            | psutilTimeoutExpired => exact absurd rfl hnt
            | subprocTimeoutExpired => rfl
            | keyError => rfl
            | typeError => rfl
            | attributeError => rfl
            | otherError => rfl
        rw [hstop]
        exact ⟨rfl, stop_noop_of_no_handle env _ rfl⟩
    · have hstop : stop env m = (m, [], none) := by
        unfold stop
        rw [hop]
        dsimp only
        rw [if_neg hpoll]
      rw [hstop]
      exact ⟨rfl, hstop⟩

/-! ### C6 — getOrBuild case analysis -/

/-- C6 (confirmed): the exact case analysis of `_build_or_load_index` in a
raise-free environment.  Marker present and documents non-empty: the loaded
artifact is merged with the documents and persisted.  Marker present and
documents empty: the loaded artifact is returned with the world unchanged
(no persist).  No marker and documents non-empty: a new artifact is built
from the documents and persisted.  No marker and no documents: "no
artifact" (`none`) with the world unchanged — absence, not an error. -/
theorem C6_case_analysis (env : IdxEnv) (root : String) (w : IdxWorld)
    (D : List Doc) (n : String)
    (hctx : env.ctxRaises (root ++ "/" ++ n) = false)
    (hload : env.loadRaises (root ++ "/" ++ n) = false)
    (hins : ∀ d, env.insertRaises d = false)
    (hper : env.persistRaises = false)
    (hbuild : env.buildRaises = false) :
    (w.marker (root ++ "/" ++ n) = true → D ≠ [] →
      (_build_or_load_index env root w D n).1 =
        .ok (some ⟨w.stored (root ++ "/" ++ n) ++ D⟩) ∧
      (_build_or_load_index env root w D n).2.stored (root ++ "/" ++ n) =
        w.stored (root ++ "/" ++ n) ++ D ∧
      (_build_or_load_index env root w D n).2.marker (root ++ "/" ++ n) = true) ∧
    (w.marker (root ++ "/" ++ n) = true → D = [] →
      _build_or_load_index env root w D n =
        (.ok (some ⟨w.stored (root ++ "/" ++ n)⟩), w)) ∧
    (w.marker (root ++ "/" ++ n) = false → D ≠ [] →
      (_build_or_load_index env root w D n).1 = .ok (some ⟨D⟩) ∧
      (_build_or_load_index env root w D n).2.stored (root ++ "/" ++ n) = D ∧
      (_build_or_load_index env root w D n).2.marker (root ++ "/" ++ n) = true) ∧
    (w.marker (root ++ "/" ++ n) = false → D = [] →
      _build_or_load_index env root w D n = (.ok none, w)) := by
  refine ⟨?_, ?_, ?_, ?_⟩
  · intro hm hD
    have hDe : D.isEmpty = false := by
      cases D with
      | nil => exact absurd rfl hD
      | cons d ds => rfl
    refine ⟨?_, ?_, ?_⟩ <;>
      simp [_build_or_load_index, hctx, hm, hDe, hper, hload,
        insertAll_no_raise env hins]
  · intro hm hD
    subst hD
    simp [_build_or_load_index, hctx, hm, hload]
  · intro hm hD
    have hDe : D.isEmpty = false := by
      cases D with
      | nil => exact absurd rfl hD
      | cons d ds => rfl
    refine ⟨?_, ?_, ?_⟩ <;>
      simp [_build_or_load_index, hctx, hm, hDe, hper, hbuild, hload]
  · intro hm hD
    subst hD
    simp [_build_or_load_index, hctx, hm, hload]

/-- C6 witness: on a fresh root, `getOrBuild([], "n")` is "no artifact" and
`getOrBuild([docA], "n")` builds from docA. -/
theorem C6_witness :
    (_build_or_load_index pureIdxEnv "root" emptyIdxWorld [] "n").1 = .ok none ∧
    (_build_or_load_index pureIdxEnv "root" emptyIdxWorld [docA] "n").1 =
      .ok (some ⟨[docA]⟩) := by
  constructor
  · exact congrArg Prod.fst
      ((C6_case_analysis pureIdxEnv "root" emptyIdxWorld [] "n"
        rfl rfl (fun _ => rfl) rfl rfl).2.2.2 rfl rfl)
  · exact ((C6_case_analysis pureIdxEnv "root" emptyIdxWorld [docA] "n"
      rfl rfl (fun _ => rfl) rfl rfl).2.2.1 rfl (List.cons_ne_nil docA [])).1

/-! ### C7 — exceptions surfaced as "no artifact" -/

/-- C7 counterexample: when the storage-context construction — the call that
reads the persisted stores and runs before the try-block — raises, the
exception propagates out of `_build_or_load_index` instead of being caught
and surfaced as "no artifact". -/
theorem C7_counterexample :
    (_build_or_load_index ctxFailIdxEnv "root" emptyIdxWorld [] "n").1 = .error () ∧
    (_build_or_load_index ctxFailIdxEnv "root" emptyIdxWorld [] "n").1 ≠ .ok none := by
  refine ⟨rfl, ?_⟩
  intro h
  rw [show (_build_or_load_index ctxFailIdxEnv "root" emptyIdxWorld [] "n").1 =
    .error () from rfl] at h
  exact Except.noConfusion h

/-- C7, amended: provided the storage-context construction (which runs
before the try-block) does not raise, every exception raised while loading,
merging, persisting or building is caught inside the guarded region and
surfaced as "no artifact"; nothing propagates to the caller. -/
theorem C7_amended_guarded_region (env : IdxEnv) (root : String)
    (w : IdxWorld) (D : List Doc) (n : String)
    (hctx : env.ctxRaises (root ++ "/" ++ n) = false) :
    (_build_or_load_index env root w D n).1 ≠ .error () := by
  unfold _build_or_load_index
  repeat' split
  all_goals
    first
    | exact fun hcontra => Except.noConfusion hcontra
    | (rename_i hbad; exact Bool.noConfusion (hctx ▸ hbad))

/-- C7 witness: the raise-free environment satisfies the guard, and the
result is not a propagated exception. -/
theorem C7_witness :
    (_build_or_load_index pureIdxEnv "root" emptyIdxWorld [] "n").1 ≠ .error () :=
  C7_amended_guarded_region pureIdxEnv "root" emptyIdxWorld [] "n" rfl

/-! ### C8 — advisory model enumeration -/

/-- C8 counterexample: with the daemon reachable and the tags endpoint
returning valid JSON whose single model object lacks a "name" field, the
enumeration raises `KeyError` to the caller instead of returning the empty
sequence the claim promises whenever the response cannot be parsed as the
expected schema. -/
theorem C8_counterexample :
    (get_installed_models c8BadSchemaEnv "h").1 = .error .keyError ∧
    (get_installed_models c8BadSchemaEnv "h").1 ≠ .ok [] := by
  refine ⟨rfl, ?_⟩
  intro h
  rw [show (get_installed_models c8BadSchemaEnv "h").1 = .error .keyError from rfl] at h
  exact Except.noConfusion h

/-- C8, amended: the enumeration returns the empty list whenever the daemon
is not reachable, the tags request raises a connection error, the response
status is 4xx/5xx, or the body is not valid JSON; when the body parses to an
object whose `models` field is an array of objects each bearing a `name`
field, it returns those names in the response's order.  (A valid-JSON body
that breaks the schema below the models-array level raises instead of
returning the empty list — see the counterexample.) -/
theorem C8_amended_empty_on_failure (env : HttpEnv) (host : String) :
    ((is_ollama_running env host).1 = false →
      (get_installed_models env host).1 = .ok []) ∧
    ((is_ollama_running env host).1 = true →
      env.get { url := host ++ "/api/tags", timeout := none } = .connError →
      (get_installed_models env host).1 = .ok []) ∧
    (∀ st b j, (is_ollama_running env host).1 = true →
      env.get { url := host ++ "/api/tags", timeout := none } = .ok st b j →
      400 ≤ st → st < 600 →
      (get_installed_models env host).1 = .ok []) ∧
    (∀ st b, (is_ollama_running env host).1 = true →
      env.get { url := host ++ "/api/tags", timeout := none } = .ok st b none →
      ¬(400 ≤ st ∧ st < 600) →
      (get_installed_models env host).1 = .ok []) ∧
    (∀ st b fields ms, (is_ollama_running env host).1 = true →
      env.get { url := host ++ "/api/tags", timeout := none } =
        .ok st b (some (.obj fields)) →
      ¬(400 ≤ st ∧ st < 600) →
      lookupField fields "models" = some (.arr ms) →
      ms.all hasName = true →
      (get_installed_models env host).1 = .ok (ms.map nameOf)) := by
  refine ⟨?_, ?_, ?_, ?_, ?_⟩
  · intro hb
    unfold get_installed_models
    cases hp : is_ollama_running env host with
    | mk b log =>
      rw [hp] at hb
      dsimp only at hb
      subst hb
      rfl
  · intro hb hconn
    unfold get_installed_models
    cases hp : is_ollama_running env host with
    | mk b log =>
      rw [hp] at hb
      dsimp only at hb
      subst hb
      dsimp only
      rw [hconn]
  · intro st b j hb hok h4 h6
    unfold get_installed_models
    cases hp : is_ollama_running env host with
    | mk bb log =>
      rw [hp] at hb
      dsimp only at hb
      subst hb
      dsimp only
      rw [hok]
      dsimp only
      rw [if_pos ⟨h4, h6⟩]
  · intro st b hb hok hs
    unfold get_installed_models
    cases hp : is_ollama_running env host with
    | mk bb log =>
      rw [hp] at hb
      dsimp only at hb
      subst hb
      dsimp only
      rw [hok]
      dsimp only
      rw [if_neg hs]
  · intro st b fields ms hb hok hs hlk hall
    unfold get_installed_models
    cases hp : is_ollama_running env host with
    | mk bb log =>
      rw [hp] at hb
      dsimp only at hb
      subst hb
      dsimp only
      rw [hok]
      dsimp only
      rw [if_neg hs]
      dsimp only
      unfold extractModels
      dsimp only
      rw [hlk]
      dsimp only
      exact mapM_extractName_ok ms hall

/-- C8 witness: at a concrete schema-conforming environment the names come
back in order. -/
theorem C8_witness :
    (get_installed_models c8GoodEnv "h").1 = .ok [.str "m1"] :=
  (C8_amended_empty_on_failure c8GoodEnv "h").2.2.2.2 200 ""
    [("models", .arr [.obj [("name", .str "m1")]])] [.obj [("name", .str "m1")]]
    rfl rfl (by decide) rfl rfl

/-! ### C9 — retrieval plan construction -/

/-- C9 counterexample: when the widened retriever construction fails (the
fallback path in the cited code), the returned plan's candidate count is the
base topK, not topK * 2: with topK = 3 and widen requested the effective
count is 3, refuting the claim's universal topK * 2. -/
theorem C9_counterexample :
    get_vector_query_engine c9FailAt6Env true 3 true =
      some { retriever := { top_k := 3 }, similarity_cutoff := 7/10 } ∧
    ((get_vector_query_engine c9FailAt6Env true 3 true).map
      fun p => p.retriever.top_k) ≠ some 6 := by
  refine ⟨rfl, ?_⟩
  intro h
  rw [show ((get_vector_query_engine c9FailAt6Env true 3 true).map
    fun p => p.retriever.top_k) = some 3 from rfl] at h
  exact absurd (Option.some.inj h) (by decide)

/-- C9, amended: for a present index the effective candidate count is topK
(widen false) or topK * 2 (widen true) provided the retriever construction
at that count succeeds; on failure the plan falls back once to the base
topK, and if that also fails (or the index is absent) there is no plan;
every constructed plan carries the fixed 0.7 relevance post-filter. -/
theorem C9_amended_effective_top_k (env : RetEnv) (topK : Nat) (widen : Bool) :
    (env.asRetrieverOk (if widen then topK * 2 else topK) = true →
      get_vector_query_engine env true topK widen =
        some { retriever := { top_k := if widen then topK * 2 else topK },
               similarity_cutoff := 7/10 }) ∧
    (env.asRetrieverOk (if widen then topK * 2 else topK) = false →
      env.asRetrieverOk topK = true →
      get_vector_query_engine env true topK widen =
        some { retriever := { top_k := topK }, similarity_cutoff := 7/10 }) ∧
    (env.asRetrieverOk (if widen then topK * 2 else topK) = false →
      env.asRetrieverOk topK = false →
      get_vector_query_engine env true topK widen = none) ∧
    get_vector_query_engine env false topK widen = none := by
  refine ⟨?_, ?_, ?_, rfl⟩
  · intro h1
    simp [get_vector_query_engine, h1]
  · intro h1 h2
    simp [get_vector_query_engine, h1, h2]
  · intro h1 h2
    simp [get_vector_query_engine, h1, h2]

/-- C9 witness: with every retriever construction succeeding, topK = 3 and
widen requested, the plan's effective candidate count is 6 and the 0.7
cutoff is attached. -/
theorem C9_witness :
    get_vector_query_engine c9OkEnv true 3 true =
      some { retriever := { top_k := 6 }, similarity_cutoff := 7/10 } :=
  (C9_amended_effective_top_k c9OkEnv 3 true).1 rfl

/-! ### C10 — eviction frame property -/

/-- C10 counterexample: with index name "..", `os.path.join` yields the
persistence root's parent, which exists, so `shutil.rmtree` deletes the
whole parent tree: the persistence root itself and a sibling directory are
removed, refuting the claim that for every index name at most the single
directory persistRoot/name is deleted. -/
theorem C10_counterexample :
    clear_index_storage ["data"] c10Fs ".." = [] ∧
    ["data"] ∉ clear_index_storage ["data"] c10Fs ".." ∧
    ["sib"] ∉ clear_index_storage ["data"] c10Fs ".." := by
  refine ⟨rfl, ?_, ?_⟩ <;>
  · rw [show clear_index_storage ["data"] c10Fs ".." = ([] : List (List String)) from rfl]
    exact List.not_mem_nil _

/-- Path resolution processes one appended component at a time. -/
theorem normalizePath_append_single (xs : List String) (c : String) :
    normalizePath (xs ++ [c]) = normStep (normalizePath xs) c := by
  unfold normalizePath
  rw [List.foldl_append]
  rfl

/-- C10, amended: for every index name that is one plain path component (no
"/" inside, not absolute, and none of "", ".", ".."), eviction removes at
most the subtree persistRoot/name: every node outside that subtree survives,
nothing new appears, the persistence root itself survives, and when
persistRoot/name does not exist the filesystem is completely unchanged (and
nothing raises). -/
theorem C10_amended_frame (root : List String) (fs : List (List String))
    (name : String)
    (hroot : normalizePath root = root)
    (hsplit : splitSlash name = [name])
    (habs : startsWithSlash name = false)
    (h0 : name ≠ "") (h1 : name ≠ ".") (h2 : name ≠ "..") :
    (∀ q ∈ fs, ¬ (root ++ [name]) <+: q → q ∈ clear_index_storage root fs name) ∧
    (∀ q ∈ clear_index_storage root fs name, q ∈ fs) ∧
    (root ∈ fs → root ∈ clear_index_storage root fs name) ∧
    ((root ++ [name]) ∉ fs → clear_index_storage root fs name = fs) := by
  have hpath : normalizePath (joinName root name) = root ++ [name] := by
    unfold joinName
    rw [if_neg (by simp [habs])]
    rw [hsplit, normalizePath_append_single, hroot]
    unfold normStep
    rw [if_neg (by simp [h0, h1]), if_neg h2]
  have hnotpre : ¬ (root ++ [name]) <+: root := by
    intro hpre
    have hlen := hpre.length_le
    simp at hlen
  unfold clear_index_storage
  rw [hpath]
  by_cases hex : pathExistsIn fs (root ++ [name]) = true
  · rw [if_pos hex]
    unfold rmtree
    refine ⟨?_, ?_, ?_, ?_⟩
    · intro q hq hnp
      rw [List.mem_filter]
      refine ⟨hq, ?_⟩
      rw [Bool.not_eq_eq_eq_not]
      rw [show (!true) = false from rfl]
      rw [← Bool.not_eq_true]
      intro hb
      exact hnp (List.isPrefixOf_iff_prefix.mp hb)
    · intro q hq
      exact (List.mem_filter.mp hq).1
    · intro hr
      rw [List.mem_filter]
      refine ⟨hr, ?_⟩
      rw [Bool.not_eq_eq_eq_not]
      rw [show (!true) = false from rfl]
      rw [← Bool.not_eq_true]
      intro hb
      exact hnotpre (List.isPrefixOf_iff_prefix.mp hb)
    · intro hnm
      exfalso
      apply hnm
      have hmem : (root ++ [name]) ∈ fs := by
        unfold pathExistsIn at hex
        simpa using hex
      exact hmem
  · rw [if_neg hex]
    exact ⟨fun q hq _ => hq, fun q hq => hq, fun hr => hr, fun _ => rfl⟩

/-- C10 witness: evicting the plain name "a" keeps the persistence root and
the sibling index directory "b". -/
theorem C10_witness :
    ["data"] ∈ clear_index_storage ["data"] c10GoodFs "a" ∧
    ["data", "b"] ∈ clear_index_storage ["data"] c10GoodFs "a" :=
  ⟨(C10_amended_frame ["data"] c10GoodFs "a" rfl rfl rfl
      (by decide) (by decide) (by decide)).2.2.1 (by decide),
   (C10_amended_frame ["data"] c10GoodFs "a" rfl rfl rfl
      (by decide) (by decide) (by decide)).1 ["data", "b"] (by decide) (by decide)⟩

end Medlegal
